import Mathlib

/-!
Verification of the ipftrace core (`ipftrace.py`) against its specification.

The Python source is shallowly embedded below.  Machine integers are
modelled as `Nat` with explicit bounds where they matter; Python `dict`s
(which preserve insertion order) are modelled as association lists where
assignment to an existing key replaces the value in place and assignment
to a fresh key appends at the end; operations that can raise a Python
exception (`KeyError`, `IndexError`, `ValueError`) return `Except String`.

Byte-order helpers (`socket.htons` / `socket.ntohs` / `socket.ntohl`) are
modelled for a little-endian host, where each is the byte-swap of the
corresponding width, matching the spec's description of the encoding
("byte-swapped from the table's host-order numeric value if the platform
is little-endian").
-/

namespace Ipft

/-- Python `dict` with string keys and values, as an insertion-ordered
association list. -/
abbrev Dict := List (String × String)

/-- Python `d[k]` read: the value at the first matching key, or a
`KeyError` when the key is absent. -/
def dictGet (d : Dict) (k : String) : Except String String :=
  match d.find? (fun p => p.1 == k) with
  | some p => .ok p.2
  | none => .error ("KeyError: " ++ k)

/-- Python `d[k] = v` write: replace in place when the key is present,
append at the end otherwise. -/
def dictSet (d : Dict) (k v : String) : Dict :=
  if d.any (fun p => p.1 == k) then
    d.map (fun p => if p.1 == k then (k, v) else p)
  else
    d ++ [(k, v)]

/-- `socket.htons` on a little-endian host: 16-bit byte swap. -/
def htons (n : Nat) : Nat := (n % 256) * 256 + (n / 256 % 256)

/-- `socket.ntohs` on a little-endian host: 16-bit byte swap. -/
def ntohs (n : Nat) : Nat := (n % 256) * 256 + (n / 256 % 256)

/-- `socket.ntohl` on a little-endian host: 32-bit byte swap. -/
def ntohl (n : Nat) : Nat :=
  (n % 256) * 16777216 + (n / 256 % 256) * 65536 +
    (n / 65536 % 256) * 256 + (n / 16777216 % 256)

/-- The packed (network-order, big-endian) four bytes of an IPv4 address
value, as produced by `ipaddress.IPv4Address(addr).packed`. -/
def ipv4Packed (a : Nat) : List Nat :=
  [a / 16777216 % 256, a / 65536 % 256, a / 256 % 256, a % 256]

/-- `int.from_bytes(bs, byteorder="little")`. -/
def fromBytesLittle (bs : List Nat) : Nat :=
  bs.foldr (fun b acc => acc * 256 + b) 0

/-- Dotted-decimal rendering of an IPv4 address value,
`str(ipaddress.IPv4Address(n))`. -/
def ipv4Dotted (n : Nat) : String :=
  toString (n / 16777216 % 256) ++ "." ++ toString (n / 65536 % 256) ++ "." ++
    toString (n / 256 % 256) ++ "." ++ toString (n % 256)

/-- The decimal digit sequence (most significant first) that `str(n)`
prints for a Python integer `n ≥ 0`. -/
def decRender (n : Nat) : List Nat :=
  if n = 0 then [0] else (Nat.digits 10 n).reverse

/-- Reading a decimal digit sequence (most significant first) back as the
number it denotes, as the C compiler does with the emitted token. -/
def decParse (ds : List Nat) : Nat :=
  Nat.ofDigits 10 ds.reverse

/-- Value of a hexadecimal digit character, if any. -/
def hexDigit (c : Char) : Option Nat :=
  if c.isDigit then some (c.toNat - 48)
  else if 97 ≤ c.toNat ∧ c.toNat ≤ 102 then some (c.toNat - 87)
  else if 65 ≤ c.toNat ∧ c.toNat ≤ 70 then some (c.toNat - 55)
  else none

/-- Python `int(s, 16)` on a plain string of hex digits; `none` models the
`ValueError` raised on malformed input. -/
def hexParse (s : String) : Option Nat :=
  if s.data.isEmpty then none
  else s.data.foldl
    (fun acc c => acc.bind (fun a => (hexDigit c).map (fun d => a * 16 + d)))
    (some 0)

/-- One entry of the function catalog (`conf/base/<version>.yaml`):
a function name and its extra probe-stub parameter declarations. -/
structure FuncEntry where
  name : String
  args : List String
deriving DecidableEq, Repr

/-- The function catalog: groups in file order, each an ordered list of
function entries (the value of the YAML `functions` key). -/
abbrev Catalog := List (String × List FuncEntry)

/-- The catalog flattened: groups in file order, functions within a group
in file order. -/
def flattenCatalog (c : Catalog) : List FuncEntry :=
  (c.map Prod.snd).flatten

/-- The probe stub text generated for one catalog entry by
`IPFTracer.build_probes` (the dedented f-string with the given event id
substituted). -/
def probeStub (name : String) (args : List String) (eid : Nat) : String :=
  "\nvoid kprobe__" ++ name ++ "(" ++
    String.intercalate ", " ("struct pt_regs *ctx" :: args) ++ ") \x7b\n" ++
    "  struct event_data e = \x7b " ++ toString eid ++ " \x7d;\n" ++
    "  if (!match(ctx, skb, &e)) \x7b\n    return;\n  \x7d\n" ++
    "  action(ctx, &e);\n\x7d\n"

/-- The mutable state threaded through the `build_probes` loop: the text
accumulated in `ret`, the tracer's `id_to_ename` list, and the `eid`
counter. -/
structure BuildSt where
  ret : String
  idToEname : List String
  eid : Nat
deriving DecidableEq

/-- One iteration of the inner loop of `build_probes`: append the
function's name to `id_to_ename`, append its stub (tagged with the
current `eid`) to the text, increment `eid`. -/
def buildStep (st : BuildSt) (e : FuncEntry) : BuildSt :=
  { ret := st.ret ++ probeStub e.name e.args st.eid
    idToEname := st.idToEname ++ [e.name]
    eid := st.eid + 1 }

/-- The two nested loops of `build_probes` over the catalog. -/
def build_probesSt (funcs : Catalog) (st : BuildSt) : BuildSt :=
  funcs.foldl (fun st g => g.2.foldl buildStep st) st

/-- `IPFTracer.build_probes`: starting from the static template text
(`ipftrace.bpf.c`) and the tracer's current `id_to_ename`, with the local
`eid` counter starting at 0, run the loops; the result is the probe text
and the updated `id_to_ename`. -/
def build_probes (funcs : Catalog) (base : String) (names : List String) :
    String × List String :=
  let st := build_probesSt funcs { ret := base, idToEname := names, eid := 0 }
  (st.ret, st.idToEname)

/-- The concatenation of the stubs for `fs`, tagged with consecutive
event ids starting at `e0`. -/
def stubsFrom : Nat → List FuncEntry → String
  | _, [] => ""
  | e0, f :: fs => probeStub f.name f.args e0 ++ stubsFrom (e0 + 1) fs

/-- Concatenation of a list of strings. -/
def joinStr (l : List String) : String := l.foldr (fun a b => a ++ b) ""

/-- The `IPFTracer` state relevant to the core: the `id_to_ename` table
and the assembled probe text. -/
structure IPFTracer where
  idToEname : List String
  probes : String
deriving DecidableEq

/-- `IPFTracer.__init__`: `id_to_ename` starts empty and `build_probes`
runs once, storing its text in `self.probes`. -/
def ipftracerInit (funcs : Catalog) (base : String) : IPFTracer :=
  let r := build_probes funcs base []
  { idToEname := r.2, probes := r.1 }

/-- `IPFTracer.resolve_event_name`: `self.id_to_ename[eid]`; an index
beyond the end of the list raises `IndexError`. -/
def resolve_event_name (tr : IPFTracer) (eid : Nat) : Except String String :=
  match tr.idToEname.get? eid with
  | some n => .ok n
  | none => .error "IndexError"

/-- The `build_probes` call at the start of `run_tracing`: it runs on the
tracer built by `__init__`, appending to the existing `id_to_ename`, and
returns the fresh probe text together with the updated tracer. -/
def run_tracing_probes (funcs : Catalog) (base : String) (tr : IPFTracer) :
    IPFTracer × String :=
  let r := build_probes funcs base tr.idToEname
  ({ tr with idToEname := r.2 }, r.1)

/-- `init_ethertypes_mapping`, over the whitespace-split lines of
`/etc/ethertypes`: skip empty lines and lines whose first token is `#`;
otherwise parse the second token as hex, byte-swap it with `htons`, and
record both directions.  A missing second token raises `IndexError`, a
malformed hex token raises `ValueError`. -/
def init_ethertypes_mapping : List (List String) → Dict → Dict →
    Except String (Dict × Dict)
  | [], t1, t2 => .ok (t1, t2)
  | [] :: rest, t1, t2 => init_ethertypes_mapping rest t1 t2
  | (h :: tl) :: rest, t1, t2 =>
    if h = "#" then init_ethertypes_mapping rest t1 t2
    else match tl.head? with
      | none => .error "IndexError"
      | some s => match hexParse s with
        | none => .error ("ValueError: " ++ s)
        | some v =>
          let ident := toString (htons v)
          init_ethertypes_mapping rest (dictSet t1 h ident) (dictSet t2 ident h)

/-- `IPFTracer.build_l3_protocol_opt`, with the `L3_PROTO_TO_ID` table
made explicit. -/
def build_l3_protocol_opt (tab : Dict) (protocol : String) :
    Except String (List String) :=
  if protocol = "any" then .ok ["-D", "L3_PROTOCOL_ANY"]
  else (dictGet tab protocol).map (fun v => ["-D", "L3_PROTOCOL=" ++ v])

/-- `IPFTracer.build_l4_protocol_opt`, with the `L4_PROTO_TO_ID` table
made explicit. -/
def build_l4_protocol_opt (tab : Dict) (protocol : String) :
    Except String (List String) :=
  if protocol = "any" then .ok ["-D", "L4_PROTOCOL_ANY"]
  else (dictGet tab protocol).map (fun v => ["-D", "L4_PROTOCOL=" ++ v])

/-- `ipaddress.IPv4Address(s)` on dotted-decimal text: the address's
numeric value, or an `AddressValueError` on malformed input. -/
def ipv4Parse (s : String) : Except String Nat :=
  match (s.splitOn ".").mapM String.toNat? with
  | some [a, b, c, d] =>
    if a < 256 ∧ b < 256 ∧ c < 256 ∧ d < 256 then
      .ok (((a * 256 + b) * 256 + c) * 256 + d)
    else .error ("AddressValueError: " ++ s)
  | _ => .error ("AddressValueError: " ++ s)

/-- The numeric value of `IPFTracer.inet_addr4` before `str`: the packed
address bytes loaded as a little-endian 32-bit integer. -/
def inet_addr4Val (a : Nat) : Nat :=
  fromBytesLittle (ipv4Packed a)

/-- `IPFTracer.inet_addr4`: parse the dotted address, take its packed
bytes, load them little-endian, render in decimal. -/
def inet_addr4 (addr : String) : Except String String :=
  (ipv4Parse addr).map (fun a => toString (inet_addr4Val a))

/-- `IPFTracer.build_addr4_opt`. -/
def build_addr4_opt (addr direction : String) : Except String (List String) :=
  if addr = "any" then .ok ["-D", direction ++ "ADDRV4_ANY"]
  else (inet_addr4 addr).map (fun v => ["-D", direction ++ "ADDRV4=" ++ v])

/-- Modelled from the spec: `ipaddress.IPv6Address(s).packed` (the
`ipaddress` library is external to the source tree).  Modelled for
full-form addresses, eight colon-separated hexadecimal hextets, each
split into its two network-order bytes. -/
def ipv6Parse (s : String) : Except String (List Nat) :=
  match (s.splitOn ":").mapM hexParse with
  | some gs =>
    if gs.length = 8 ∧ gs.all (fun g => g < 65536) then
      .ok (gs.flatMap (fun g => [g / 256, g % 256]))
    else .error ("AddressValueError: " ++ s)
  | none => .error ("AddressValueError: " ++ s)

/-- The token list `list(map(lambda b: str(b), p))` built by
`IPFTracer.inet_addr6` from the packed bytes, with each byte's decimal
text represented by its digit sequence. -/
def inet_addr6Tokens (p : List Nat) : List (List Nat) :=
  p.map decRender

/-- The comma-joined string `IPFTracer.inet_addr6` builds from the packed
bytes. -/
def inet_addr6FromBytes (p : List Nat) : String :=
  String.intercalate "," (p.map (fun b => toString b))

/-- `IPFTracer.inet_addr6`: parse the textual address, join the decimal
renderings of its 16 packed bytes with commas. -/
def inet_addr6 (addr : String) : Except String String :=
  (ipv6Parse addr).map inet_addr6FromBytes

/-- `IPFTracer.build_addr6_opt`. -/
def build_addr6_opt (addr direction : String) : Except String (List String) :=
  if addr = "any" then .ok ["-D", direction ++ "ADDRV6_ANY"]
  else (inet_addr6 addr).map (fun v => ["-D", direction ++ "ADDRV6=" ++ v])

/-- `IPFTracer.build_port_opt`. -/
def build_port_opt (port direction : String) : Except String (List String) :=
  if port = "any" then .ok ["-D", direction ++ "PORT_ANY"]
  else .ok ["-D", direction ++ "PORT=" ++ port]

/-- The eight filter dimensions held in `self.args`. -/
structure Args where
  l3proto : String
  l4proto : String
  saddr4 : String
  daddr4 : String
  saddr6 : String
  daddr6 : String
  sport : String
  dport : String
deriving DecidableEq

/-- The four protocol tables populated at startup. -/
structure Tables where
  l3ToId : Dict
  idToL3 : Dict
  l4ToId : Dict
  idToL4 : Dict

/-- `IPFTracer.build_opts`: the eight option fragments concatenated in
source order; the first lookup failure propagates as the raised error. -/
def build_opts (tb : Tables) (a : Args) : Except String (List String) := do
  let o1 ← build_l3_protocol_opt tb.l3ToId a.l3proto
  let o2 ← build_l4_protocol_opt tb.l4ToId a.l4proto
  let o3 ← build_addr4_opt a.saddr4 "S"
  let o4 ← build_addr4_opt a.daddr4 "D"
  let o5 ← build_addr6_opt a.saddr6 "S"
  let o6 ← build_addr6_opt a.daddr6 "D"
  let o7 ← build_port_opt a.sport "S"
  let o8 ← build_port_opt a.dport "D"
  pure (o1 ++ o2 ++ o3 ++ o4 ++ o5 ++ o6 ++ o7 ++ o8)

/-- The `Flow` dataclass: frozen, compared field by field. -/
structure Flow where
  l3_protocol : String
  l4_protocol : String
  saddr : String
  daddr : String
  sport : Nat
  dport : Nat
deriving DecidableEq

/-- The `flows` dict of `run_tracing`, keyed by `Flow`, insertion
ordered. -/
abbrev FlowTable := List (Flow × List String)

/-- `flows.get(flow, [])`. -/
def flowsGet (t : FlowTable) (f : Flow) : List String :=
  match t.find? (fun p => p.1 == f) with
  | some p => p.2
  | none => []

/-- `flows[flow] = l`: replace in place when the key is present, append
at the end otherwise. -/
def flowsSet (t : FlowTable) (f : Flow) (l : List String) : FlowTable :=
  if t.any (fun p => p.1 == f) then
    t.map (fun p => if p.1 == f then (f, l) else p)
  else
    t ++ [(f, l)]

/-- The aggregation step at the end of `handle_event` (the spec's
`FlowAggregator.record`): fetch the flow's list, append the name only if
absent, store the list back. -/
def record (t : FlowTable) (f : Flow) (n : String) : FlowTable :=
  let l := flowsGet t f
  let l2 := if n ∈ l then l else l ++ [n]
  flowsSet t f l2

/-- One raw `EventData` record, with the address union carried as raw
material for both of its members (the handler picks which member to read
from the discriminant `l3_protocol`). -/
structure EventData where
  event_id : Nat
  l4_protocol : Nat
  l3_protocol : Nat
  v4saddr : Nat
  v4daddr : Nat
  v6saddr : List Nat
  v6daddr : List Nat
  sport : Nat
  dport : Nat
deriving DecidableEq

/-- Hexadecimal rendering of a hextet (lowercase, as `int` formatting
produces). -/
def hexStr (n : Nat) : String :=
  String.mk (Nat.toDigits 16 n)

/-- The 16 bytes regrouped into 16-bit hextets, network order. -/
def hextets : List Nat → List Nat
  | b1 :: b2 :: rest => (b1 * 256 + b2) :: hextets rest
  | [b] => [b]
  | [] => []

/-- Modelled from the spec: `str(ipaddress.IPv6Address(bytes))`, the
standard network-to-text conversion (the `ipaddress` library is external
to the source tree).  Modelled as uncompressed lowercase hexadecimal
hextets joined by colons; only the fact that it is a function of the 16
bytes is used below. -/
def ipv6Text (bs : List Nat) : String :=
  String.intercalate ":" ((hextets bs).map hexStr)

/-- `handle_event` (the per-record callback in `run_tracing`), with the
global protocol tables and the enclosing tracer made explicit.  The
result carries the updated `flows` dict and the list of diagnostic lines
printed; a raised exception is an `Except.error`. -/
def handle_event (tb : Tables) (tr : IPFTracer) (flows : FlowTable)
    (ev : EventData) : Except String (FlowTable × List String) := do
  let event_name ← resolve_event_name tr ev.event_id
  let ipv4Id ← dictGet tb.l3ToId "IPv4"
  if toString ev.l3_protocol = ipv4Id then
    let saddr := ipv4Dotted (ntohl ev.v4saddr)
    let daddr := ipv4Dotted (ntohl ev.v4daddr)
    let l3name ← dictGet tb.idToL3 (toString ev.l3_protocol)
    let l4name ← dictGet tb.idToL4 (toString ev.l4_protocol)
    let flow : Flow :=
      { l3_protocol := l3name, l4_protocol := l4name, saddr := saddr,
        daddr := daddr, sport := ntohs ev.sport, dport := ntohs ev.dport }
    pure (record flows flow event_name, [])
  else
    let ipv6Id ← dictGet tb.l3ToId "IPv6"
    if toString ev.l3_protocol = ipv6Id then
      let saddr := ipv6Text ev.v6saddr
      let daddr := ipv6Text ev.v6daddr
      let l3name ← dictGet tb.idToL3 (toString ev.l3_protocol)
      let l4name ← dictGet tb.idToL4 (toString ev.l4_protocol)
      let flow : Flow :=
        { l3_protocol := l3name, l4_protocol := l4name, saddr := saddr,
          daddr := daddr, sport := ntohs ev.sport, dport := ntohs ev.dport }
      pure (record flows flow event_name, [])
    else
      pure (flows, ["Unsupported l3 protocol " ++ toString ev.l3_protocol])

/-- The `src` column of a rendered row:
`f.saddr + ((":" + str(f.sport)) if f.sport != 0 else "")`. -/
def srcField (f : Flow) : String :=
  f.saddr ++ (if f.sport ≠ 0 then ":" ++ toString f.sport else "")

/-- The `dst` column of a rendered row. -/
def dstField (f : Flow) : String :=
  f.daddr ++ (if f.dport ≠ 0 then ":" ++ toString f.dport else "")

/-- Python `repr` of a list of strings, as printed for the function-name
sequence (`str` quotes each element with apostrophes). -/
def reprStrList (l : List String) : String :=
  "[" ++ String.intercalate ", " (l.map (fun s => "\x27" ++ s ++ "\x27")) ++ "]"

/-- One printed row of the flow table. -/
def renderRow (f : Flow) (e : List String) : String :=
  f.l4_protocol ++ "\t" ++ srcField f ++ "\t->\t" ++ dstField f ++ "\t" ++
    reprStrList e

/-- The rendering loop at the bottom of `run_tracing`
(`for f, e in flows.items(): print(...)`): the loop body only reads the
table, so the state threaded through it is returned alongside the lines
printed. -/
def renderLoop (t : FlowTable) : List String × FlowTable :=
  t.foldl (fun acc p => (acc.1 ++ [renderRow p.1 p.2], acc.2)) ([], t)

/-- Filter arguments with every one of the eight dimensions `"any"`. -/
def anyArgs : Args :=
  { l3proto := "any", l4proto := "any", saddr4 := "any", daddr4 := "any",
    saddr6 := "any", daddr6 := "any", sport := "any", dport := "any" }

/-- Concrete two-function catalog used by the witnesses. -/
def catW : Catalog :=
  [("g1", [{ name := "f1", args := ["struct sk_buff *skb"] },
           { name := "f2", args := ["struct sk_buff *skb"] }])]

/-- The flow key used by the witnesses. -/
def flowW : Flow :=
  { l3_protocol := "IPv4", l4_protocol := "tcp", saddr := "10.0.0.1",
    daddr := "10.0.0.2", sport := 1234, dport := 80 }

/-- Concrete protocol tables used by counterexamples and witnesses
(ethertype ids as they appear after the `htons` byte swap:
IPv4 `0x0800 ↦ "8"`, IPv6 `0x86DD ↦ "56710"`). -/
def tbW : Tables :=
  { l3ToId := [("IPv4", "8"), ("IPv6", "56710")],
    idToL3 := [("8", "IPv4"), ("56710", "IPv6")],
    l4ToId := [("tcp", "6")],
    idToL4 := [("6", "tcp")] }

/-- Concrete tracer built from the two-function witness catalog; its
`id_to_ename` table is `["f1", "f2"]`. -/
def trW : IPFTracer := ipftracerInit catW "BASE\n"

/-- The whitespace-split lines of a representative `/etc/ethertypes`. -/
def linesW : List (List String) :=
  [["IPv4", "0800", "ip"], ["X25", "0805"], ["ARP", "0806", "ether-arp"],
   ["#", "comment"], ["IPv6", "86DD", "ip6"]]

/-! ## Helper lemmas -/

theorem foldl_buildStep (fs : List FuncEntry) (st : BuildSt) :
    fs.foldl buildStep st =
      { ret := st.ret ++ stubsFrom st.eid fs,
        idToEname := st.idToEname ++ fs.map FuncEntry.name,
        eid := st.eid + fs.length } := by
  induction fs generalizing st with
  | nil => simp [stubsFrom]
  | cons f fs ih =>
    simp only [List.foldl_cons, ih, buildStep, stubsFrom, List.map_cons,
      List.length_cons]
    simp only [BuildSt.mk.injEq]
    refine ⟨String.append_assoc .., by simp, by omega⟩

theorem stubsFrom_append (xs ys : List FuncEntry) (e0 : Nat) :
    stubsFrom e0 (xs ++ ys) = stubsFrom e0 xs ++ stubsFrom (e0 + xs.length) ys := by
  induction xs generalizing e0 with
  | nil => simp [stubsFrom]
  | cons x xs ih =>
    simp [stubsFrom, ih, String.append_assoc, Nat.add_assoc, Nat.add_comm 1]

theorem build_probesSt_spec (funcs : Catalog) (st : BuildSt) :
    build_probesSt funcs st =
      { ret := st.ret ++ stubsFrom st.eid (flattenCatalog funcs),
        idToEname := st.idToEname ++ (flattenCatalog funcs).map FuncEntry.name,
        eid := st.eid + (flattenCatalog funcs).length } := by
  induction funcs generalizing st with
  | nil => simp [build_probesSt, flattenCatalog, stubsFrom]
  | cons g rest ih =>
    simp only [build_probesSt, List.foldl_cons] at *
    rw [foldl_buildStep, ih]
    simp [flattenCatalog, stubsFrom_append, String.append_assoc, Nat.add_assoc]

theorem stubsFrom_eq_join (fs : List FuncEntry) (e0 : Nat) :
    stubsFrom e0 fs =
      joinStr (((List.range' e0 fs.length).zip fs).map
        (fun p => probeStub p.2.name p.2.args p.1)) := by
  induction fs generalizing e0 with
  | nil => simp [stubsFrom, joinStr]
  | cons f fs ih => simp [stubsFrom, List.range', joinStr, ih]

theorem build_probes_spec (funcs : Catalog) (base : String) (names : List String) :
    build_probes funcs base names =
      (base ++ stubsFrom 0 (flattenCatalog funcs),
        names ++ (flattenCatalog funcs).map FuncEntry.name) := by
  unfold build_probes
  rw [build_probesSt_spec]

/-! ## Claim theorems -/


/-- C1: the EventId assigned by `build_probes` to each function is its
index in the flattened traversal of the catalog (the k-th stub is tagged
with id k), and the `id_to_ename` table built from the same traversal
maps every id in `[0, N)` back to that function's name. -/
theorem C1_event_id_assignment (funcs : Catalog) (base : String) (k : Nat)
    (h : k < (flattenCatalog funcs).length) :
    (ipftracerInit funcs base).probes =
      base ++ joinStr (((List.range' 0 (flattenCatalog funcs).length).zip
        (flattenCatalog funcs)).map (fun p => probeStub p.2.name p.2.args p.1))
    ∧ (ipftracerInit funcs base).idToEname =
        (flattenCatalog funcs).map FuncEntry.name
    ∧ resolve_event_name (ipftracerInit funcs base) k =
        .ok ((flattenCatalog funcs).get ⟨k, h⟩).name := by
  have hinit : ipftracerInit funcs base =
      { idToEname := (flattenCatalog funcs).map FuncEntry.name,
        probes := base ++ stubsFrom 0 (flattenCatalog funcs) } := by
    simp [ipftracerInit, build_probes_spec]
  refine ⟨?_, ?_, ?_⟩
  · rw [hinit, ← stubsFrom_eq_join]
  · rw [hinit]
  · rw [hinit]
    simp [resolve_event_name, List.getElem?_map, List.getElem?_eq_getElem h]

theorem C1_witness :
    1 < (flattenCatalog catW).length ∧
      resolve_event_name (ipftracerInit catW "BASE\n") 1 = .ok "f2" :=
  ⟨by decide, (C1_event_id_assignment catW "BASE\n" 1 (by decide)).2.2⟩

/-- C4: the second `build_probes` run in `run_tracing` produces
byte-identical probe text, embeds the same sequential EventId assignment
(ids `0..N-1` in flattened order), and the decoder's `id_to_ename` table
still resolves every embedded id to that function's name. -/
theorem C4_reassembly_deterministic (funcs : Catalog) (base : String) :
    (run_tracing_probes funcs base (ipftracerInit funcs base)).2 =
      (ipftracerInit funcs base).probes
    ∧ (run_tracing_probes funcs base (ipftracerInit funcs base)).2 =
        base ++ joinStr (((List.range' 0 (flattenCatalog funcs).length).zip
          (flattenCatalog funcs)).map (fun p => probeStub p.2.name p.2.args p.1))
    ∧ ∀ k (h : k < (flattenCatalog funcs).length),
        resolve_event_name
            (run_tracing_probes funcs base (ipftracerInit funcs base)).1 k =
          .ok ((flattenCatalog funcs).get ⟨k, h⟩).name := by
  have hinit : ipftracerInit funcs base =
      { idToEname := (flattenCatalog funcs).map FuncEntry.name,
        probes := base ++ stubsFrom 0 (flattenCatalog funcs) } := by
    simp [ipftracerInit, build_probes_spec]
  have hrun : run_tracing_probes funcs base (ipftracerInit funcs base) =
      ({ idToEname := (flattenCatalog funcs).map FuncEntry.name ++
            (flattenCatalog funcs).map FuncEntry.name,
         probes := base ++ stubsFrom 0 (flattenCatalog funcs) },
        base ++ stubsFrom 0 (flattenCatalog funcs)) := by
    rw [hinit]
    simp [run_tracing_probes, build_probes_spec]
  refine ⟨?_, ?_, ?_⟩
  · rw [hrun, hinit]
  · rw [hrun, ← stubsFrom_eq_join]
  · intro k h
    rw [hrun]
    have hk : k < ((flattenCatalog funcs).map FuncEntry.name).length := by
      simpa using h
    simp [resolve_event_name, List.getElem?_append_left hk, List.getElem?_map,
      List.getElem?_eq_getElem h]

theorem C4_witness :
    (run_tracing_probes catW "B" (ipftracerInit catW "B")).2 =
      (ipftracerInit catW "B").probes
    ∧ resolve_event_name
        (run_tracing_probes catW "B" (ipftracerInit catW "B")).1 1 = .ok "f2" :=
  ⟨(C4_reassembly_deterministic catW "B").1,
    (C4_reassembly_deterministic catW "B").2.2 1 (by decide)⟩

theorem ntohl_bytes (x0 x1 x2 x3 : Nat) (h0 : x0 < 256) (h1 : x1 < 256)
    (h2 : x2 < 256) (h3 : x3 < 256) :
    ntohl (x3 * 16777216 + x2 * 65536 + x1 * 256 + x0) =
      x0 * 16777216 + x1 * 65536 + x2 * 256 + x3 := by
  unfold ntohl
  omega

/-- C3: loading the packed bytes of an IPv4 address as a little-endian
32-bit integer (`inet_addr4`) and then applying the decoder's
network-to-host conversion (`socket.ntohl`) and dotted-decimal formatting
recovers exactly the original address. -/
theorem C3_ipv4_filter_roundtrip (a : Nat) (h : a < 4294967296) :
    ntohl (inet_addr4Val a) = a
    ∧ ipv4Dotted (ntohl (inet_addr4Val a)) = ipv4Dotted a := by
  have hv : inet_addr4Val a =
      (a % 256) * 16777216 + (a / 256 % 256) * 65536 +
        (a / 65536 % 256) * 256 + a / 16777216 % 256 := by
    unfold inet_addr4Val fromBytesLittle ipv4Packed
    simp only [List.foldr]
    ring
  have he : ntohl (inet_addr4Val a) = a := by
    rw [hv, ntohl_bytes _ _ _ _ (by omega) (by omega) (by omega) (by omega)]
    have e1 : a / 256 / 256 = a / 65536 := by rw [Nat.div_div_eq_div_mul]
    have e2 : a / 65536 / 256 = a / 16777216 := by rw [Nat.div_div_eq_div_mul]
    have e3 : a / 16777216 / 256 = 0 := by
      rw [Nat.div_div_eq_div_mul]; exact Nat.div_eq_of_lt h
    omega
  exact ⟨he, by rw [he]⟩

theorem C3_witness :
    167772161 < 4294967296 ∧ ntohl (inet_addr4Val 167772161) = 167772161 :=
  ⟨by decide, (C3_ipv4_filter_roundtrip 167772161 (by decide)).1⟩

/-- C9: with every filter dimension `"any"`, `build_opts` emits exactly
the eight accept-any marker symbols and no `NAME=value` exact-match
constant. -/
theorem C9_all_any_markers (tb : Tables) :
    build_opts tb anyArgs = .ok
      ["-D", "L3_PROTOCOL_ANY", "-D", "L4_PROTOCOL_ANY",
       "-D", "SADDRV4_ANY", "-D", "DADDRV4_ANY",
       "-D", "SADDRV6_ANY", "-D", "DADDRV6_ANY",
       "-D", "SPORT_ANY", "-D", "DPORT_ANY"]
    ∧ (["-D", "L3_PROTOCOL_ANY", "-D", "L4_PROTOCOL_ANY",
        "-D", "SADDRV4_ANY", "-D", "DADDRV4_ANY",
        "-D", "SADDRV6_ANY", "-D", "DADDRV6_ANY",
        "-D", "SPORT_ANY", "-D", "DPORT_ANY"].all
          (fun s => !(s.data.contains '='))) = true := by
  constructor
  · rfl
  · decide

theorem decParse_decRender (n : Nat) : decParse (decRender n) = n := by
  unfold decParse decRender
  by_cases h : n = 0
  · simp [h, Nat.ofDigits]
  · simp [h, List.reverse_reverse, Nat.ofDigits_digits]

/-- C8: the 16 decimal byte tokens emitted by `inet_addr6` denote, in
order, exactly the packed network-order bytes of the address, so the
decoder's standard network-to-text conversion of those bytes reproduces
the original textual address. -/
theorem C8_ipv6_filter_roundtrip (bs : List Nat) (_h : bs.length = 16) :
    (inet_addr6Tokens bs).map decParse = bs
    ∧ ipv6Text ((inet_addr6Tokens bs).map decParse) = ipv6Text bs
    ∧ inet_addr6FromBytes bs =
        String.intercalate "," (bs.map (fun b => toString b)) := by
  have h1 : (inet_addr6Tokens bs).map decParse = bs := by
    unfold inet_addr6Tokens
    rw [List.map_map]
    simp [Function.comp_def, decParse_decRender]
  exact ⟨h1, by rw [h1], rfl⟩

theorem C8_witness :
    ([32, 1, 13, 184, 0, 0, 0, 0, 0, 0, 0, 0, 0, 0, 0, 1] : List Nat).length = 16
    ∧ (inet_addr6Tokens [32, 1, 13, 184, 0, 0, 0, 0, 0, 0, 0, 0, 0, 0, 0, 1]).map
        decParse = [32, 1, 13, 184, 0, 0, 0, 0, 0, 0, 0, 0, 0, 0, 0, 1] :=
  ⟨by decide,
    (C8_ipv6_filter_roundtrip [32, 1, 13, 184, 0, 0, 0, 0, 0, 0, 0, 0, 0, 0, 0, 1]
      (by decide)).1⟩

theorem find?_map_replace (t : FlowTable) (f : Flow) (l : List String)
    (hany : t.any (fun p => p.1 == f) = true) :
    (t.map (fun p => if p.1 == f then (f, l) else p)).find?
      (fun p => p.1 == f) = some (f, l) := by
  induction t with
  | nil => simp at hany
  | cons p rest ih =>
    by_cases hp : p.1 = f
    · simp [hp]
    · have hpb : (p.1 == f) = false := by simp [hp]
      simp only [List.any_cons, hpb, Bool.false_or] at hany
      rw [List.map_cons, List.find?_cons_of_neg _ (by simp [hp])]
      exact ih hany

theorem find?_none_of_any_false (t : FlowTable) (f : Flow)
    (hany : t.any (fun p => p.1 == f) = false) :
    t.find? (fun p => p.1 == f) = none := by
  rw [List.find?_eq_none]
  intro p hp hc
  have hT : t.any (fun p => p.1 == f) = true := List.any_eq_true.mpr ⟨p, hp, hc⟩
  rw [hany] at hT
  simp at hT

theorem flowsGet_set (t : FlowTable) (f : Flow) (l : List String) :
    flowsGet (flowsSet t f l) f = l := by
  unfold flowsGet flowsSet
  by_cases hany : t.any (fun p => p.1 == f) = true
  · rw [if_pos hany, find?_map_replace t f l hany]
  · rw [if_neg hany, List.find?_append,
      find?_none_of_any_false t f (by revert hany; cases t.any (fun p => p.1 == f) <;> simp)]
    simp

theorem flowsSet_set (t : FlowTable) (f : Flow) (l l2 : List String) :
    flowsSet (flowsSet t f l) f l2 = flowsSet t f l2 := by
  by_cases hany : t.any (fun p => p.1 == f) = true
  · have hany2 : (t.map (fun p => if p.1 == f then (f, l) else p)).any
        (fun p => p.1 == f) = true := by
      rw [List.any_map]
      have : ((fun p : Flow × List String => p.1 == f) ∘
          (fun p => if p.1 == f then (f, l) else p)) =
          (fun p : Flow × List String => p.1 == f) := by
        funext p
        by_cases hp : p.1 = f <;> simp [Function.comp_def, hp]
      rw [this]
      exact hany
    simp only [flowsSet, hany, hany2, if_true]
    rw [List.map_map]
    apply List.map_congr_left
    intro p _
    by_cases hp : p.1 = f <;> simp [Function.comp_def, hp]
  · have hnone : ∀ p ∈ t, (p.1 = f) = False := by
      intro p hp
      simp only [eq_iff_iff, iff_false]
      intro hc
      exact hany (List.any_eq_true.mpr ⟨p, hp, by simp [hc]⟩)
    have hany2 : (t ++ [(f, l)]).any (fun p => p.1 == f) = true := by
      simp [List.any_append]
    have hmap : t.map (fun p => if p.1 == f then (f, l2) else p) = t := by
      conv_rhs => rw [show t = t.map id from (List.map_id t).symm]
      apply List.map_congr_left
      intro p hp
      simp [hnone p hp]
    simp only [flowsSet, hany, hany2, if_true, if_false, Bool.false_eq_true]
    rw [List.map_append, hmap]
    simp

/-- C7: the aggregation step is idempotent in the `(flow, name)` pair —
recording the same pair twice changes nothing, a recorded name occurs
exactly once in the flow's sequence (starting from a duplicate-free
sequence), and distinct names are appended in first-seen order. -/
theorem C7_record_idempotent (t : FlowTable) (f : Flow) (n n1 n2 : String) :
    record (record t f n) f n = record t f n
    ∧ ((flowsGet t f).Nodup → (flowsGet (record t f n) f).count n = 1)
    ∧ (n1 ∉ flowsGet t f → n2 ∉ flowsGet t f → n1 ≠ n2 →
        flowsGet (record (record t f n1) f n2) f = flowsGet t f ++ [n1, n2]) := by
  refine ⟨?_, ?_, ?_⟩
  · unfold record
    have hmem : n ∈ (if n ∈ flowsGet t f then flowsGet t f
        else flowsGet t f ++ [n]) := by
      by_cases hn : n ∈ flowsGet t f <;> simp [hn]
    simp only [flowsGet_set, if_pos hmem, flowsSet_set]
  · intro hnd
    unfold record
    by_cases hn : n ∈ flowsGet t f
    · simp only [if_pos hn, flowsGet_set]
      exact List.count_eq_one_of_mem hnd hn
    · simp only [if_neg hn, flowsGet_set]
      simp [List.count_append, List.count_eq_zero.mpr hn]
  · intro h1 h2 h12
    unfold record
    simp only [if_neg h1, flowsGet_set]
    have hn2 : n2 ∉ flowsGet t f ++ [n1] := by
      simp only [List.mem_append, List.mem_singleton]
      rintro (hc | hc)
      · exact h2 hc
      · exact h12 hc.symm
    simp only [if_neg hn2, flowsGet_set, List.append_assoc]
    rfl

theorem C7_witness :
    record (record [] flowW "f1") flowW "f1" = record [] flowW "f1"
    ∧ (flowsGet (record [] flowW "f1") flowW).count "f1" = 1
    ∧ flowsGet (record (record [] flowW "f1") flowW "f2") flowW = ["f1", "f2"] :=
  ⟨(C7_record_idempotent [] flowW "f1" "f1" "f2").1,
    (C7_record_idempotent [] flowW "f1" "f1" "f2").2.1 (by decide),
    (C7_record_idempotent [] flowW "f1" "f1" "f2").2.2 (by decide) (by decide)
      (by decide)⟩

theorem renderLoop_foldl (t : FlowTable) (s : FlowTable) (out : List String) :
    t.foldl (fun acc p => (acc.1 ++ [renderRow p.1 p.2], acc.2)) (out, s) =
      (out ++ t.map (fun p => renderRow p.1 p.2), s) := by
  induction t generalizing out with
  | nil => simp
  | cons p rest ih => simp [ih]

/-- C10: the rendering loop is a pure read — it emits exactly one row per
known flow in table order and returns the flow table (and so every flow's
function-name sequence) unchanged; within a row the port suffix is
omitted from an address exactly when that port is zero. -/
theorem C10_render_pure_read (t : FlowTable) (f : Flow) :
    renderLoop t = (t.map (fun p => renderRow p.1 p.2), t)
    ∧ (renderLoop t).1.length = t.length
    ∧ (srcField f = f.saddr ↔ f.sport = 0)
    ∧ (dstField f = f.daddr ↔ f.dport = 0) := by
  have hloop : renderLoop t = (t.map (fun p => renderRow p.1 p.2), t) := by
    unfold renderLoop
    rw [renderLoop_foldl]
    simp
  refine ⟨hloop, by simp [hloop], ?_, ?_⟩
  · constructor
    · intro h
      by_contra hz
      have hlen := congrArg String.length h
      have h1 : (":" : String).length = 1 := rfl
      simp only [srcField, if_pos hz, String.length_append, h1] at hlen
      omega
    · intro h
      simp [srcField, h]
  · constructor
    · intro h
      by_contra hz
      have hlen := congrArg String.length h
      have h1 : (":" : String).length = 1 := rfl
      simp only [dstField, if_pos hz, String.length_append, h1] at hlen
      omega
    · intro h
      simp [dstField, h]

theorem bindE_ok {α β : Type} (a : α) (f : α → Except String β) :
    Bind.bind (Except.ok a) f = f a := rfl

theorem bindE_err {α β : Type} (e : String) (f : α → Except String β) :
    Bind.bind (Except.error e) f = (Except.error e : Except String β) := rfl

theorem pureE {α : Type} (a : α) : (pure a : Except String α) = Except.ok a := rfl

theorem resolve_event_name_lt (tr : IPFTracer) (i : Nat)
    (h : i < tr.idToEname.length) :
    resolve_event_name tr i = .ok (tr.idToEname.get ⟨i, h⟩) := by
  simp [resolve_event_name, List.get?_eq_getElem?, List.getElem?_eq_getElem h]

theorem resolve_event_name_ge (tr : IPFTracer) (i : Nat)
    (h : tr.idToEname.length ≤ i) :
    resolve_event_name tr i = .error "IndexError" := by
  simp [resolve_event_name, List.get?_eq_getElem?, List.getElem?_eq_none h]

/-- C2 (amended): of the three per-record decode failures, only the
unknown-L3-protocol case is non-fatal (a diagnostic is returned, the flow
table is left unchanged and no exception is raised); an `event_id` beyond
the id-to-name table raises `IndexError` and an `l4_protocol` id absent
from the protocol table raises `KeyError`, both uncaught. -/
theorem C2_decode_failure_policy (tb : Tables) (tr : IPFTracer)
    (flows : FlowTable) (ev : EventData) :
    (tr.idToEname.length ≤ ev.event_id →
      handle_event tb tr flows ev = .error "IndexError")
    ∧ (∀ v4 v6, ev.event_id < tr.idToEname.length →
        dictGet tb.l3ToId "IPv4" = .ok v4 →
        dictGet tb.l3ToId "IPv6" = .ok v6 →
        toString ev.l3_protocol ≠ v4 →
        toString ev.l3_protocol ≠ v6 →
        handle_event tb tr flows ev =
          .ok (flows, ["Unsupported l3 protocol " ++ toString ev.l3_protocol]))
    ∧ (∀ v4 l3n m, ev.event_id < tr.idToEname.length →
        dictGet tb.l3ToId "IPv4" = .ok v4 →
        toString ev.l3_protocol = v4 →
        dictGet tb.idToL3 (toString ev.l3_protocol) = .ok l3n →
        dictGet tb.idToL4 (toString ev.l4_protocol) = .error m →
        handle_event tb tr flows ev = .error m) := by
  refine ⟨?_, ?_, ?_⟩
  · intro h
    unfold handle_event
    rw [resolve_event_name_ge tr ev.event_id h, bindE_err]
  · intro v4 v6 hlt h4 h6 hne4 hne6
    simp [handle_event, resolve_event_name_lt tr ev.event_id hlt, h4, h6,
      hne4, hne6, bindE_ok, pureE]
  · intro v4 l3n m hlt h4 heq h3 hl4
    have h3v : dictGet tb.idToL3 v4 = Except.ok l3n := by rw [← heq]; exact h3
    simp [handle_event, resolve_event_name_lt tr ev.event_id hlt, h4, heq,
      h3, h3v, hl4, bindE_ok, bindE_err]

/-- C2, counterexample to the claim as stated: a record whose `event_id`
(9) lies outside the known id range is not handled non-fatally — the
handler raises `IndexError` instead of dropping the record. -/
theorem C2_counterexample :
    handle_event tbW trW [] ⟨9, 6, 8, 0, 0, [], [], 0, 0⟩ =
      .error "IndexError" := by
  rfl

theorem C2_witness :
    handle_event tbW trW [] ⟨5, 6, 8, 0, 0, [], [], 0, 0⟩ = .error "IndexError"
    ∧ handle_event tbW trW [] ⟨0, 6, 999, 0, 0, [], [], 0, 0⟩ =
        .ok ([], ["Unsupported l3 protocol 999"])
    ∧ handle_event tbW trW [] ⟨0, 99, 8, 0, 0, [], [], 0, 0⟩ =
        .error "KeyError: 99" :=
  ⟨(C2_decode_failure_policy tbW trW [] ⟨5, 6, 8, 0, 0, [], [], 0, 0⟩).1
      (by decide),
    (C2_decode_failure_policy tbW trW [] ⟨0, 6, 999, 0, 0, [], [], 0, 0⟩).2.1
      "8" "56710" (by decide) rfl rfl (by decide) (by decide),
    (C2_decode_failure_policy tbW trW [] ⟨0, 99, 8, 0, 0, [], [], 0, 0⟩).2.2
      "8" "IPv4" "KeyError: 99" (by decide) rfl rfl rfl rfl⟩

/-- C6, counterexample to the claim as stated: a record whose
`l3_protocol` (12345) matches neither configured id but whose `event_id`
(7) is outside the id-to-name table makes the handler raise `IndexError`
rather than drop the record silently — the claim needs the event id to be
resolvable. -/
theorem C6_counterexample :
    handle_event tbW trW [] ⟨7, 6, 12345, 0, 0, [], [], 0, 0⟩ =
      .error "IndexError" := by
  rfl

/-- C6 (amended): a record with a resolvable `event_id` whose
`l3_protocol` equals neither the configured IPv4 id nor the configured
IPv6 id is dropped — the handler returns the flow table unchanged
together with a diagnostic, and raises no exception. -/
theorem C6_unknown_l3_drops_record (tb : Tables) (tr : IPFTracer)
    (flows : FlowTable) (ev : EventData) (v4 v6 : String)
    (hlt : ev.event_id < tr.idToEname.length)
    (h4 : dictGet tb.l3ToId "IPv4" = .ok v4)
    (h6 : dictGet tb.l3ToId "IPv6" = .ok v6)
    (hne4 : toString ev.l3_protocol ≠ v4)
    (hne6 : toString ev.l3_protocol ≠ v6) :
    handle_event tb tr flows ev =
      .ok (flows, ["Unsupported l3 protocol " ++ toString ev.l3_protocol]) := by
  simp [handle_event, resolve_event_name_lt tr ev.event_id hlt, h4, h6,
    hne4, hne6, bindE_ok, pureE]

theorem C6_witness :
    handle_event tbW trW [] ⟨1, 6, 777, 0, 0, [], [], 0, 0⟩ =
      .ok ([], ["Unsupported l3 protocol 777"]) :=
  C6_unknown_l3_drops_record tbW trW [] ⟨1, 6, 777, 0, 0, [], [], 0, 0⟩
    "8" "56710" (by decide) rfl rfl (by decide) (by decide)

theorem find?_map_replace_ne (d : Dict) (k' v k : String) (h : k' ≠ k) :
    (d.map (fun p => if p.1 == k' then (k', v) else p)).find?
      (fun p => p.1 == k) = d.find? (fun p => p.1 == k) := by
  induction d with
  | nil => rfl
  | cons p rest ih =>
    by_cases hp : p.1 = k'
    · rw [List.map_cons, if_pos (by simp [hp]),
        List.find?_cons_of_neg _ (by simp [h]),
        List.find?_cons_of_neg _ (by simp [hp, h])]
      exact ih
    · rw [List.map_cons, if_neg (by simp [hp])]
      by_cases hc : p.1 = k
      · rw [List.find?_cons_of_pos _ (by simp [hc]),
          List.find?_cons_of_pos _ (by simp [hc])]
      · rw [List.find?_cons_of_neg _ (by simp [hc]),
          List.find?_cons_of_neg _ (by simp [hc])]
        exact ih

theorem dictGet_set_ne (d : Dict) (k' v k : String) (h : k' ≠ k) :
    dictGet (dictSet d k' v) k = dictGet d k := by
  unfold dictGet dictSet
  by_cases hany : d.any (fun p => p.1 == k') = true
  · rw [if_pos hany, find?_map_replace_ne d k' v k h]
  · rw [if_neg hany, List.find?_append,
      List.find?_cons_of_neg _ (by simp [h])]
    cases d.find? (fun p => p.1 == k) <;> rfl

theorem init_ethertypes_preserves_missing (lines : List (List String))
    (r1 r2 : Dict) (k : String) :
    ∀ t1 t2 : Dict,
    (∀ spl ∈ lines, spl.head? ≠ some k) →
    dictGet t1 k = .error ("KeyError: " ++ k) →
    init_ethertypes_mapping lines t1 t2 = .ok (r1, r2) →
    dictGet r1 k = .error ("KeyError: " ++ k) := by
  induction lines with
  | nil =>
    intro t1 t2 _ h0 hr
    simp only [init_ethertypes_mapping, Except.ok.injEq, Prod.mk.injEq] at hr
    rw [← hr.1]
    exact h0
  | cons spl rest ih =>
    intro t1 t2 hk h0 hr
    cases spl with
    | nil =>
      simp only [init_ethertypes_mapping] at hr
      exact ih _ _ (fun s hs => hk s (List.mem_cons_of_mem _ hs)) h0 hr
    | cons hd tl =>
      simp only [init_ethertypes_mapping] at hr
      by_cases hcomment : hd = "#"
      · rw [if_pos hcomment] at hr
        exact ih _ _ (fun s hs => hk s (List.mem_cons_of_mem _ hs)) h0 hr
      · rw [if_neg hcomment] at hr
        cases htl : tl.head? with
        | none =>
          simp only [htl] at hr
          exact absurd hr (by simp)
        | some s =>
          simp only [htl] at hr
          cases hx : hexParse s with
          | none =>
            simp only [hx] at hr
            exact absurd hr (by simp)
          | some n =>
            simp only [hx] at hr
            have hhd : hd ≠ k := by
              intro hc
              exact hk (hd :: tl) (List.mem_cons_self _ _) (by simp [hc])
            refine ih _ _ (fun s hs => hk s (List.mem_cons_of_mem _ hs)) ?_ hr
            rw [dictGet_set_ne t1 hd (toString (htons n)) k hhd]
            exact h0

/-- C5: the CLI's only concrete `--l3proto` choices are `"4"` and `"6"`,
but the L3 name-to-id table is keyed by the ethertype names in the first
column of `/etc/ethertypes` (such as `IPv4` and `IPv6`); when no line's
first token is `"4"` or `"6"`, compiling a concrete L3 filter raises a
`KeyError`, aborting startup. -/
theorem C5_l3proto_choices_keyerror (lines : List (List String)) (r1 r2 : Dict)
    (hr : init_ethertypes_mapping lines [] [] = .ok (r1, r2))
    (h4 : ∀ spl ∈ lines, spl.head? ≠ some "4")
    (h6 : ∀ spl ∈ lines, spl.head? ≠ some "6") :
    build_l3_protocol_opt r1 "4" = .error "KeyError: 4"
    ∧ build_l3_protocol_opt r1 "6" = .error "KeyError: 6" := by
  have g4 : dictGet r1 "4" = .error ("KeyError: " ++ "4") :=
    init_ethertypes_preserves_missing lines r1 r2 "4" [] [] h4 rfl hr
  have g6 : dictGet r1 "6" = .error ("KeyError: " ++ "6") :=
    init_ethertypes_preserves_missing lines r1 r2 "6" [] [] h6 rfl hr
  constructor
  · rw [build_l3_protocol_opt, if_neg (by decide), g4]; rfl
  · rw [build_l3_protocol_opt, if_neg (by decide), g6]; rfl

theorem C5_witness :
    init_ethertypes_mapping linesW [] [] =
      .ok ([("IPv4", "8"), ("X25", "1288"), ("ARP", "1544"), ("IPv6", "56710")],
        [("8", "IPv4"), ("1288", "X25"), ("1544", "ARP"), ("56710", "IPv6")])
    ∧ build_l3_protocol_opt
        [("IPv4", "8"), ("X25", "1288"), ("ARP", "1544"), ("IPv6", "56710")]
        "4" = .error "KeyError: 4"
    ∧ build_l3_protocol_opt
        [("IPv4", "8"), ("X25", "1288"), ("ARP", "1544"), ("IPv6", "56710")]
        "6" = .error "KeyError: 6" := by
  have hinit : init_ethertypes_mapping linesW [] [] =
      .ok ([("IPv4", "8"), ("X25", "1288"), ("ARP", "1544"), ("IPv6", "56710")],
        [("8", "IPv4"), ("1288", "X25"), ("1544", "ARP"), ("56710", "IPv6")]) := by
    rfl
  refine ⟨hinit, ?_, ?_⟩
  · exact (C5_l3proto_choices_keyerror linesW _ _ hinit (by decide) (by decide)).1
  · exact (C5_l3proto_choices_keyerror linesW _ _ hinit (by decide) (by decide)).2

end Ipft
